import Mathlib

/-!
# Verification of the ASTF core engine (`astf_core.py`)

Shallow embedding of the trust/ethics scoring core:

* Python `float` is modelled as `ℚ` (the decimal literals of the source are
  exact in `ℚ`); Python `int` as `ℤ`; Python `str` values as `List Char`.
* `datetime` (microsecond precision, naive or with a fixed UTC offset) is the
  `Datetime` structure below, with `isoformat` / `fromisoformat` modelled
  concretely on character lists after CPython 3.7-3.10, whose documented
  `fromisoformat` grammar the spec relies on.
* Python dicts at the serialization boundary are association lists
  (`Dict` below); mutation of the caller dict by `from_dict` is made
  explicit by returning the final dict state.
* Exceptions become `Except PyError`; the catch-all in
  `calculate_trust_score` corresponds to that function being total here.
-/

namespace ASTF

/-- Python `datetime.datetime`, microsecond precision.  `tzoffset` is the
fixed UTC offset of an attached `timezone` in microseconds (`none` for a
naive object such as `datetime.utcnow()` produces). -/
structure Datetime where
  year : ℕ
  month : ℕ
  day : ℕ
  hour : ℕ
  minute : ℕ
  second : ℕ
  microsecond : ℕ
  tzoffset : Option ℤ
deriving DecidableEq

/-- Gregorian leap-year rule, as used by `datetime` for day validation. -/
def isLeapYear (y : ℕ) : Bool :=
  y % 4 == 0 && (y % 100 != 0 || y % 400 == 0)

/-- Number of days of month `m` of year `y`. -/
def daysInMonth (y m : ℕ) : ℕ :=
  if m = 2 then (if isLeapYear y then 29 else 28)
  else if m = 4 ∨ m = 6 ∨ m = 9 ∨ m = 11 then 30
  else 31

/-- 24 hours in microseconds: `timezone` requires a UTC offset strictly
between `-timedelta(hours=24)` and `timedelta(hours=24)`. -/
def dayUS : ℤ := 86400000000

/-- The bound `timezone` enforces on an offset (`True` for naive objects). -/
def tzValid : Option ℤ → Prop
  | none => True
  | some d => -dayUS < d ∧ d < dayUS

instance (o : Option ℤ) : Decidable (tzValid o) := by
  cases o <;> { unfold tzValid; infer_instance }

/-- The field ranges enforced by the `datetime` constructor: every `datetime`
object that can reach `isoformat` satisfies them. -/
def Datetime.Valid (t : Datetime) : Prop :=
  1 ≤ t.year ∧ t.year ≤ 9999 ∧ 1 ≤ t.month ∧ t.month ≤ 12 ∧
  1 ≤ t.day ∧ t.day ≤ daysInMonth t.year t.month ∧
  t.hour ≤ 23 ∧ t.minute ≤ 59 ∧ t.second ≤ 59 ∧ t.microsecond ≤ 999999 ∧
  tzValid t.tzoffset

instance (t : Datetime) : Decidable t.Valid := by
  unfold Datetime.Valid; infer_instance

/-- The decimal digit character for `n < 10`. -/
def digitChar (n : ℕ) : Char := Char.ofNat (48 + n)

/-- Numeric value of a digit character. -/
def digitVal (c : Char) : ℕ := c.toNat - 48

/-- Whether `c` is one of `'0'`..`'9'`. -/
def isDigitCh (c : Char) : Bool := 48 ≤ c.toNat && c.toNat ≤ 57

/-- Zero-padded fixed-width decimal rendering, most significant digit first
(the zero padding `isoformat` uses for every component). -/
def padNum : ℕ → ℕ → List Char
  | 0, _ => []
  | k + 1, n => digitChar (n / 10 ^ k % 10) :: padNum k n

/-- The component part of a rendered UTC offset, after the sign
(`_format_offset`): `HH:MM`, plus `:SS` when seconds or microseconds of the
offset magnitude `a` are nonzero, plus `.ffffff` when its microseconds are
nonzero. -/
def offComps (a : ℕ) : List Char :=
  padNum 2 (a / 3600000000) ++ ':' :: padNum 2 (a / 60000000 % 60) ++
    (if a / 1000000 % 60 = 0 ∧ a % 1000000 = 0 then []
     else ':' :: padNum 2 (a / 1000000 % 60) ++
       (if a % 1000000 = 0 then [] else '.' :: padNum 6 (a % 1000000)))

/-- `_format_offset`: empty for a naive object, otherwise a sign followed by
the offset components of the magnitude. -/
def formatOffset : Option ℤ → List Char
  | none => []
  | some d => (if d < 0 then '-' else '+') :: offComps d.natAbs

/-- `datetime.isoformat()`: `YYYY-MM-DDTHH:MM:SS`, with `.ffffff` appended
exactly when the microsecond field is nonzero, and the UTC offset appended
for an aware object. -/
def Datetime.isoformat (t : Datetime) : List Char :=
  padNum 4 t.year ++ '-' :: padNum 2 t.month ++ '-' :: padNum 2 t.day ++
  'T' :: padNum 2 t.hour ++ ':' :: padNum 2 t.minute ++ ':' :: padNum 2 t.second ++
  (if t.microsecond = 0 then [] else '.' :: padNum 6 t.microsecond) ++
  formatOffset t.tzoffset

/-- Consume exactly `k` digit characters, MSB first, onto accumulator `acc`:
returns the value read and the remaining input, or `none` on a non-digit. -/
def parseFixed : ℕ → ℕ → List Char → Option (ℕ × List Char)
  | 0, acc, l => some (acc, l)
  | _ + 1, _, [] => none
  | k + 1, acc, c :: l =>
      if isDigitCh c then parseFixed k (acc * 10 + digitVal c) l else none

/-- Consume one expected character. -/
def expectCh (c : Char) : List Char → Option (List Char)
  | [] => none
  | c2 :: l => if c2 = c then some l else none

/-- The fractional-seconds tail accepted by `fromisoformat`: empty, or a dot
followed by exactly three or exactly six digits; yields microseconds. -/
def parseMicro : List Char → Option ℕ
  | [] => some 0
  | '.' :: r =>
      match parseFixed 3 0 r with
      | none => none
      | some (f3, rest) =>
          match rest with
          | [] => some (f3 * 1000)
          | _ =>
              match parseFixed 3 0 rest with
              | some (f6, []) => some (f3 * 1000 + f6)
              | _ => none
  | _ => none

/-- Split a string at the first occurrence of `c` (Python `str.find`). -/
def splitFirst (c : Char) : List Char → Option (List Char × List Char)
  | [] => none
  | x :: xs =>
      if x = c then some ([], xs)
      else (splitFirst c xs).map (fun p => (x :: p.1, p.2))

/-- The offset search of `_parse_isoformat_time`
(`tz_pos = tstr.find(-) + 1 or tstr.find(+) + 1`): split the time string at
the first minus sign when one occurs, otherwise at the first plus sign; the
boolean records a negative offset sign. -/
def splitTZ (l : List Char) : Option (List Char × Bool × List Char) :=
  match splitFirst '-' l with
  | some p => some (p.1, true, p.2)
  | none =>
      match splitFirst '+' l with
      | some p => some (p.1, false, p.2)
      | none => none

/-- `_parse_hh_mm_ss_ff` of CPython 3.7-3.10: `HH[:MM[:SS[.fff[fff]]]]` —
each component a two-digit run, the fraction exactly three or six digits.
Components are modelled as decimal digit runs, the documented format. -/
def parseHMSF (l : List Char) : Option (ℕ × ℕ × ℕ × ℕ) := do
  let p1 ← parseFixed 2 0 l
  match p1.2 with
  | [] => some (p1.1, 0, 0, 0)
  | ':' :: r1 => do
      let p2 ← parseFixed 2 0 r1
      match p2.2 with
      | [] => some (p1.1, p2.1, 0, 0)
      | ':' :: r2 => do
          let p3 ← parseFixed 2 0 r2
          match parseMicro p3.2 with
          | none => none
          | some mic => some (p1.1, p2.1, p3.1, mic)
      | _ => none
  | _ => none

/-- The offset tail of `_parse_isoformat_time`: the substring after the sign
must have length 5, 8 or 15, parse as `_parse_hh_mm_ss_ff`, and yield a
`timedelta` magnitude strictly below 24 hours (the `timezone` bound). -/
def parseTZDelta (neg : Bool) (tzstr : List Char) : Option ℤ :=
  if tzstr.length = 5 ∨ tzstr.length = 8 ∨ tzstr.length = 15 then
    match parseHMSF tzstr with
    | none => none
    | some (th, tm, ts, tus) =>
        let mag : ℤ := (((th * 3600 + tm * 60 + ts) * 1000000 + tus : ℕ) : ℤ)
        if mag < dayUS then some (if neg then -mag else mag) else none
  else none

/-- `_parse_isoformat_time` of CPython 3.7-3.10: at least two characters, an
optional UTC offset split off at the first sign character, and the remainder
parsed as `HH[:MM[:SS[.fff[fff]]]]`. -/
def parseTime (tstr : List Char) : Option ((ℕ × ℕ × ℕ × ℕ) × Option ℤ) :=
  if tstr.length < 2 then none
  else
    match splitTZ tstr with
    | none =>
        match parseHMSF tstr with
        | none => none
        | some c => some (c, none)
    | some (timestr, neg, tzstr) =>
        match parseHMSF timestr with
        | none => none
        | some c =>
            match parseTZDelta neg tzstr with
            | none => none
            | some d => some (c, some d)

/-- `_parse_isoformat_date` of CPython 3.7-3.10 on `dtstr[:10]`:
`YYYY-MM-DD`, where the day slice `dtstr[8:10]` may also be a single digit
when the string ends there. -/
def parseDate (l : List Char) : Option (ℕ × ℕ × ℕ) := do
  let py ← parseFixed 4 0 l
  let r1 ← expectCh '-' py.2
  let pm ← parseFixed 2 0 r1
  let r2 ← expectCh '-' pm.2
  match r2 with
  | [c] => if isDigitCh c then some (py.1, pm.1, digitVal c) else none
  | _ =>
      match parseFixed 2 0 r2 with
      | none => none
      | some pd => if pd.2 = [] then some (py.1, pm.1, pd.1) else none

/-- `datetime.fromisoformat` of CPython 3.7-3.10 (the documented inverse of
`isoformat`, format `YYYY-MM-DD[*HH[:MM[:SS[.fff[fff]]]]][(+|-)HH:MM[:SS[.ffffff]]]`):
the date is parsed from the first ten characters, the character at index 10
(when present) is an arbitrary separator, and the rest, when nonempty, is the
time-with-offset part; the component ranges are the ones the `datetime`
constructor enforces.  (Python 3.11 widened the accepted grammar further.) -/
def fromisoformat (dtstr : List Char) : Option Datetime := do
  let d ← parseDate (dtstr.take 10)
  let tc ← match dtstr.drop 11 with
           | [] => some ((0, 0, 0, 0), (none : Option ℤ))
           | tstr => parseTime tstr
  let dt : Datetime := ⟨d.1, d.2.1, d.2.2, tc.1.1, tc.1.2.1, tc.1.2.2.1, tc.1.2.2.2, tc.2⟩
  if dt.Valid then some dt else none

/-! ## The serialization boundary: dict values -/

/-- The value kinds the `to_dict`/`from_dict` boundary contract carries:
floats, ints, strings and `datetime` objects. -/
inductive Value where
  | vFloat : ℚ → Value
  | vInt : ℤ → Value
  | vStr : List Char → Value
  | vTime : Datetime → Value
deriving DecidableEq

/-- A Python dict (string keys), as an insertion-ordered association list. -/
def Dict := List (String × Value)

instance : DecidableEq Dict := by unfold Dict; infer_instance

/-- Key lookup `d[k]`, as an `Option`. -/
def Dict.find? : Dict → String → Option Value
  | [], _ => none
  | (k, v) :: d, key => if k = key then some v else Dict.find? d key

/-- Assignment `d[key] = v`: overwrites in place when the key exists,
appends otherwise (Python dicts keep insertion order). -/
def Dict.set : Dict → String → Value → Dict
  | [], key, v => [(key, v)]
  | (k, w) :: d, key, v =>
      if k = key then (key, v) :: d else (k, w) :: Dict.set d key v

/-- The keys of a dict. -/
def Dict.keys (d : Dict) : List String := d.map Prod.fst

/-- The exceptions the modelled fragment can raise. -/
inductive PyError where
  | typeError
  | valueError
deriving DecidableEq

/-! ## TrustMetrics -/

/-- The `TrustMetrics` dataclass, after `__post_init__` (so the timestamp is
always present). -/
structure TrustMetrics where
  reliability_score : ℚ
  ethical_alignment : ℚ
  transparency_index : ℚ
  consistency_score : ℚ
  collaboration_history : ℤ
  conflict_resolutions : ℤ
  verification_timestamp : Datetime
deriving DecidableEq

/-- The field names of the `TrustMetrics` dataclass, in declaration order. -/
def trustMetricsFields : List String :=
  ["reliability_score", "ethical_alignment", "transparency_index",
   "consistency_score", "collaboration_history", "conflict_resolutions",
   "verification_timestamp"]

/-- Read a float field from a dict value (defaulting when absent).  The
dataclass stores whatever it is given; the model keeps fields well-typed, so a
value of the wrong kind is rejected here. -/
def getFloat : Option Value → ℚ → Option ℚ
  | none, dflt => some dflt
  | some (Value.vFloat q), _ => some q
  | some _, _ => none

/-- Read an int field from a dict value (defaulting when absent). -/
def getInt : Option Value → ℤ → Option ℤ
  | none, dflt => some dflt
  | some (Value.vInt n), _ => some n
  | some _, _ => none

/-- Read the timestamp field: absent means `None`, which `__post_init__`
replaces with `datetime.utcnow()` (the `now` argument of the model). -/
def getTime : Option Value → Datetime → Option Datetime
  | none, now => some now
  | some (Value.vTime t), _ => some t
  | some _, _ => none

/-- `TrustMetrics(**data)` followed by `__post_init__`: a keyword that is not
a dataclass field raises `TypeError`; present fields are assigned, absent ones
take the declared defaults (`0.0`, `0`, and `now` for the timestamp). -/
def TrustMetrics.construct (now : Datetime) (data : Dict) : Except PyError TrustMetrics :=
  if data.keys.all (fun k => trustMetricsFields.contains k) then
    match (do
      let r ← getFloat (data.find? "reliability_score") 0
      let e ← getFloat (data.find? "ethical_alignment") 0
      let tr ← getFloat (data.find? "transparency_index") 0
      let c ← getFloat (data.find? "consistency_score") 0
      let ch ← getInt (data.find? "collaboration_history") 0
      let cr ← getInt (data.find? "conflict_resolutions") 0
      let ts ← getTime (data.find? "verification_timestamp") now
      pure (TrustMetrics.mk r e tr c ch cr ts) : Option TrustMetrics) with
    | some m => Except.ok m
    | none => Except.error PyError.typeError
  else Except.error PyError.typeError

/-- `TrustMetrics.to_dict`: `asdict(self)` in field order, with the timestamp
overwritten by its `isoformat` string. -/
def TrustMetrics.to_dict (m : TrustMetrics) : Dict :=
  [("reliability_score", Value.vFloat m.reliability_score),
   ("ethical_alignment", Value.vFloat m.ethical_alignment),
   ("transparency_index", Value.vFloat m.transparency_index),
   ("consistency_score", Value.vFloat m.consistency_score),
   ("collaboration_history", Value.vInt m.collaboration_history),
   ("conflict_resolutions", Value.vInt m.conflict_resolutions),
   ("verification_timestamp", Value.vStr m.verification_timestamp.isoformat)]

/-- `TrustMetrics.from_dict`: when `data` holds a string under
`verification_timestamp`, it is parsed (a parse failure raises `ValueError`
before any mutation) and the parsed `datetime` is assigned back into the
dict of the CALLER, then `cls(**data)` constructs the entity.  The result is
the outcome paired with the final state of that same dict; `now` models
`datetime.utcnow()` in `__post_init__`. -/
def TrustMetrics.from_dict (now : Datetime) (data : Dict) :
    Except PyError TrustMetrics × Dict :=
  match data.find? "verification_timestamp" with
  | some (Value.vStr s) =>
      match fromisoformat s with
      | none => (Except.error PyError.valueError, data)
      | some t =>
          let data2 := data.set "verification_timestamp" (Value.vTime t)
          (TrustMetrics.construct now data2, data2)
  | _ => (TrustMetrics.construct now data, data)

/-! ## AISystemProfile and the trust score -/

/-- The `AISystemProfile` dataclass.  `trust_metrics` stays `Optional` as in
the source; `__post_init__` (modelled by `AISystemProfile.postInit`) replaces
an absent value.  The Python `Set[str]` is a `Finset String`. -/
structure AISystemProfile where
  system_id : String
  domain : String
  capabilities : List String
  ethical_framework_version : String
  trust_metrics : Option TrustMetrics
  last_interaction : Option Datetime
  blacklisted_domains : Finset String

/-- `AISystemProfile.__post_init__`: default metrics (all-zero fields, fresh
timestamp `now`) when absent, empty blacklist when absent is already forced by
the `Finset` field. -/
def AISystemProfile.postInit (now : Datetime) (p : AISystemProfile) : AISystemProfile :=
  match p.trust_metrics with
  | none => { p with trust_metrics := some (TrustMetrics.mk 0 0 0 0 0 0 now) }
  | some _ => p

/-- `AISystemProfile.calculate_trust_score`.  The `try`/`except` of the source
corresponds to this function being total: with well-typed fields no arithmetic
in the body can raise, and the `None` check is the explicit match.  Decimal
literals are exact in `ℚ`. -/
def AISystemProfile.calculate_trust_score (p : AISystemProfile) : ℚ :=
  match p.trust_metrics with
  | none => 0
  | some tm =>
      let scores : List ℚ :=
        [tm.reliability_score * 0.3,
         tm.ethical_alignment * 0.25,
         tm.transparency_index * 0.2,
         tm.consistency_score * 0.15,
         min ((tm.collaboration_history : ℚ) / 100) 1.0 * 0.1]
      let resolution_bonus := min ((tm.conflict_resolutions : ℚ) * 0.05) 0.1
      let total_score := scores.sum + resolution_bonus
      max 0.0 (min 1.0 total_score)

/-- The method as a state transformer (Python methods may mutate `self`): the
translation returns the post-call profile with the result.  The body assigns
nothing to `self`, which the pair makes explicit. -/
def AISystemProfile.calculate_trust_score_run (p : AISystemProfile) :
    AISystemProfile × ℚ :=
  (p, p.calculate_trust_score)

/-! ## EthicalFramework -/

/-- One principle entry of `EthicalFramework.rules`. -/
structure EthicalRule where
  weight : ℚ
  description : String
  min_threshold : ℚ
deriving DecidableEq

/-- The `EthicalFramework` class state. -/
structure EthicalFramework where
  framework_id : String
  rules : List (String × EthicalRule)
  cultural_adaptations : List (String × List (String × EthicalRule))
  version_history : List (List (String × EthicalRule))

/-- `_load_default_framework`.  The available source is truncated inside the
`accountability` entry right after `"weight": 0.10`; its description and
`min_threshold` (Modelled from the spec: explicitly unknown, a configuration
value) are therefore parameters, so every theorem below holds whatever they
are. -/
def defaultRules (accDescription : String) (accMinThreshold : ℚ) :
    List (String × EthicalRule) :=
  [("autonomy",
    ⟨0.25, "Respect for AI system autonomy and decision boundaries", 0.7⟩),
   ("beneficence",
    ⟨0.30, "Actions must promote well-being and prevent harm", 0.8⟩),
   ("justice",
    ⟨0.20, "Fair distribution of resources and opportunities", 0.6⟩),
   ("transparency",
    ⟨0.15, "Openness about capabilities and limitations", 0.5⟩),
   ("accountability",
    ⟨0.10, accDescription, accMinThreshold⟩)]

/-- `EthicalFramework.__init__`: empty adaptations and history, then
`_load_default_framework` fills `rules`. -/
def EthicalFramework.init (framework_id : String)
    (accDescription : String) (accMinThreshold : ℚ) : EthicalFramework :=
  { framework_id := framework_id
    rules := defaultRules accDescription accMinThreshold
    cultural_adaptations := []
    version_history := [] }

/-! ## Concrete fixtures used by the witness theorems -/

/-- A concrete naive timestamp with nonzero microseconds. -/
def wTs : Datetime := ⟨2024, 3, 7, 15, 4, 5, 123456, none⟩

/-- A concrete stand-in for `datetime.utcnow()`. -/
def wNow : Datetime := ⟨2000, 1, 1, 0, 0, 0, 0, none⟩

/-- Metrics at the ceiling: all four scores `1.0`, 150 collaborations,
3 conflict resolutions. -/
def wMetricsFull : TrustMetrics := ⟨1, 1, 1, 1, 150, 3, wTs⟩

/-- All-zero metrics. -/
def wMetricsZero : TrustMetrics := ⟨0, 0, 0, 0, 0, 0, wTs⟩

/-- A profile holding the ceiling metrics. -/
def wProfileFull : AISystemProfile :=
  ⟨"sys-a", "health", ["diagnosis"], "1.0.0", some wMetricsFull, none, ∅⟩

/-- A profile with `trust_metrics` forcibly absent. -/
def wProfileNone : AISystemProfile :=
  ⟨"sys-b", "health", [], "1.0.0", none, none, ∅⟩

/-- A profile holding the all-zero metrics. -/
def wProfileZero : AISystemProfile :=
  ⟨"sys-c", "finance", [], "1.0.0", some wMetricsZero, none, ∅⟩

theorem digitChar_spec (d : ℕ) (h : d < 10) :
    isDigitCh (digitChar d) = true ∧ digitVal (digitChar d) = d := by
  interval_cases d <;> exact ⟨rfl, rfl⟩

theorem parseFixed_padNum (k : ℕ) : ∀ (acc n : ℕ) (rest : List Char),
    parseFixed k acc (padNum k n ++ rest) = some (acc * 10 ^ k + n % 10 ^ k, rest) := by
  induction k with
  | zero => intro acc n rest; simp [parseFixed, padNum, Nat.mod_one]
  | succ k ih =>
    intro acc n rest
    have hd : n / 10 ^ k % 10 < 10 := Nat.mod_lt _ (by norm_num)
    obtain ⟨h1, h2⟩ := digitChar_spec _ hd
    have key : (acc * 10 + n / 10 ^ k % 10) * 10 ^ k + n % 10 ^ k
        = acc * 10 ^ (k + 1) + n % 10 ^ (k + 1) := by
      rw [pow_succ, Nat.mod_mul]; ring
    simp only [padNum, List.cons_append, parseFixed, h1, if_true, h2,
      List.append_eq, ih, key]

theorem parseFixed_padNum_nil (k acc n : ℕ) :
    parseFixed k acc (padNum k n) = some (acc * 10 ^ k + n % 10 ^ k, []) := by
  rw [← List.append_nil (padNum k n), parseFixed_padNum]

theorem expectCh_cons (c : Char) (l : List Char) : expectCh c (c :: l) = some l := by
  simp [expectCh]

theorem padNum_six (n : ℕ) : padNum 6 n = padNum 3 (n / 1000) ++ padNum 3 n := by
  simp [padNum, Nat.div_div_eq_div_mul]

theorem parseMicro_pad (mic : ℕ) (h1 : mic ≤ 999999) :
    parseMicro ('.' :: padNum 6 mic) = some mic := by
  have e3 : mic / 1000 % 10 ^ 3 = mic / 1000 := Nat.mod_eq_of_lt (by omega)
  obtain ⟨a, l, hal⟩ : ∃ a l, padNum 3 mic = a :: l := ⟨_, _, rfl⟩
  rw [show parseMicro ('.' :: padNum 6 mic)
      = (match parseFixed 3 0 (padNum 6 mic) with
         | none => none
         | some (f3, rest) =>
             match rest with
             | [] => some (f3 * 1000)
             | _ =>
                 match parseFixed 3 0 rest with
                 | some (f6, []) => some (f3 * 1000 + f6)
                 | _ => none) from rfl]
  rw [padNum_six, parseFixed_padNum, hal]
  simp only []
  rw [← hal, parseFixed_padNum_nil]
  simp only [Option.some.injEq, Nat.zero_mul, Nat.zero_add, e3]
  omega

theorem daysInMonth_le (y m : ℕ) : daysInMonth y m ≤ 31 := by
  unfold daysInMonth
  split
  · split <;> omega
  · split <;> omega

theorem padNum_length (k n : ℕ) : (padNum k n).length = k := by
  induction k generalizing n with
  | zero => rfl
  | succ k ih => simp [padNum, ih]

theorem mem_padNum (c : Char) (k n : ℕ) (h : c ∈ padNum k n) :
    ∃ d, d < 10 ∧ c = digitChar d := by
  induction k generalizing n with
  | zero => simp [padNum] at h
  | succ k ih =>
    rw [padNum] at h
    rcases List.mem_cons.mp h with h1 | h2
    · exact ⟨_, Nat.mod_lt _ (by norm_num), h1⟩
    · exact ih _ h2

theorem not_mem_padNum (c : Char) (hc : ∀ d, d < 10 → digitChar d ≠ c)
    (k n : ℕ) : c ∉ padNum k n := by
  intro h
  obtain ⟨d, hd, rfl⟩ := mem_padNum c k n h
  exact hc d hd rfl

theorem dash_not_digit : ∀ d, d < 10 → digitChar d ≠ '-' := by
  intro d hd
  interval_cases d <;> decide

theorem plus_not_digit : ∀ d, d < 10 → digitChar d ≠ '+' := by
  intro d hd
  interval_cases d <;> decide

theorem splitFirst_of_not_mem (c : Char) (l : List Char) (h : c ∉ l) :
    splitFirst c l = none := by
  induction l with
  | nil => rfl
  | cons x xs ih =>
    rw [splitFirst, if_neg (by intro hx; subst hx; exact h (List.mem_cons_self x xs)),
      ih (fun hm => h (List.mem_cons_of_mem _ hm))]
    rfl

theorem splitFirst_append (c : Char) (a b : List Char) (h : c ∉ a) :
    splitFirst c (a ++ c :: b) = some (a, b) := by
  induction a with
  | nil => simp [splitFirst]
  | cons x xs ih =>
    rw [List.cons_append, splitFirst,
      if_neg (by intro hx; subst hx; exact h (List.mem_cons_self x xs)),
      ih (fun hm => h (List.mem_cons_of_mem _ hm))]
    rfl

theorem splitTZ_of_not_mem (l : List Char) (h1 : '-' ∉ l) (h2 : '+' ∉ l) :
    splitTZ l = none := by
  unfold splitTZ
  rw [splitFirst_of_not_mem _ _ h1, splitFirst_of_not_mem _ _ h2]

theorem splitTZ_neg (a b : List Char) (h : '-' ∉ a) :
    splitTZ (a ++ '-' :: b) = some (a, true, b) := by
  unfold splitTZ
  rw [splitFirst_append _ _ _ h]

theorem splitTZ_pos (a b : List Char) (h1 : '-' ∉ a) (h2 : '-' ∉ b) (h3 : '+' ∉ a) :
    splitTZ (a ++ '+' :: b) = some (a, false, b) := by
  unfold splitTZ
  have hnd : '-' ∉ a ++ '+' :: b := by
    simp only [List.mem_append, List.mem_cons]
    push_neg
    exact ⟨h1, by decide, h2⟩
  rw [splitFirst_of_not_mem _ _ hnd, splitFirst_append _ _ _ h3]

theorem parseHMSF_pad2 (a b : ℕ) (ha : a < 100) (hb : b < 100) :
    parseHMSF (padNum 2 a ++ ':' :: padNum 2 b) = some (a, b, 0, 0) := by
  have ea : a % 10 ^ 2 = a := Nat.mod_eq_of_lt (by omega)
  have eb : b % 10 ^ 2 = b := Nat.mod_eq_of_lt (by omega)
  simp only [parseHMSF, parseFixed_padNum, parseFixed_padNum_nil, Option.bind_eq_bind,
    Option.some_bind, Nat.zero_mul, Nat.zero_add, ea, eb]

theorem parseHMSF_pad3 (a b c mic : ℕ) (frac : List Char)
    (ha : a < 100) (hb : b < 100) (hc2 : c < 100)
    (hfrac : parseMicro frac = some mic) :
    parseHMSF (padNum 2 a ++ ':' :: (padNum 2 b ++ ':' :: (padNum 2 c ++ frac)))
      = some (a, b, c, mic) := by
  have ea : a % 10 ^ 2 = a := Nat.mod_eq_of_lt (by omega)
  have eb : b % 10 ^ 2 = b := Nat.mod_eq_of_lt (by omega)
  have ec : c % 10 ^ 2 = c := Nat.mod_eq_of_lt (by omega)
  simp only [parseHMSF, parseFixed_padNum, Option.bind_eq_bind, Option.some_bind,
    Nat.zero_mul, Nat.zero_add, ea, eb, ec, hfrac]

theorem offComps_parse (a : ℕ) (ha : a < 86400000000) :
    parseHMSF (offComps a)
      = some (a / 3600000000, a / 60000000 % 60, a / 1000000 % 60, a % 1000000) := by
  have hh : a / 3600000000 < 100 := by omega
  have hm : a / 60000000 % 60 < 100 := by omega
  have hs : a / 1000000 % 60 < 100 := by omega
  by_cases h1 : a / 1000000 % 60 = 0 ∧ a % 1000000 = 0
  · rw [offComps, if_pos h1, List.append_nil, parseHMSF_pad2 _ _ hh hm, h1.1, h1.2]
  · rw [offComps, if_neg h1]
    have hfrac : parseMicro (if a % 1000000 = 0 then [] else '.' :: padNum 6 (a % 1000000))
        = some (a % 1000000) := by
      by_cases h2 : a % 1000000 = 0
      · rw [if_pos h2, h2]; rfl
      · rw [if_neg h2]; exact parseMicro_pad _ (by omega)
    have hshape : padNum 2 (a / 3600000000) ++ ':' :: padNum 2 (a / 60000000 % 60) ++
        (':' :: padNum 2 (a / 1000000 % 60) ++
          (if a % 1000000 = 0 then [] else '.' :: padNum 6 (a % 1000000)))
        = padNum 2 (a / 3600000000) ++ ':' :: (padNum 2 (a / 60000000 % 60) ++ ':' ::
            (padNum 2 (a / 1000000 % 60) ++
              (if a % 1000000 = 0 then [] else '.' :: padNum 6 (a % 1000000)))) := by
      simp [List.append_assoc]
    rw [hshape, parseHMSF_pad3 _ _ _ _ _ hh hm hs hfrac]

theorem parseTZDelta_offComps (neg : Bool) (a : ℕ) (ha : a < 86400000000) :
    parseTZDelta neg (offComps a) = some (if neg then -(a : ℤ) else (a : ℤ)) := by
  have hlen : (offComps a).length = 5 ∨ (offComps a).length = 8 ∨ (offComps a).length = 15 := by
    unfold offComps
    by_cases h1 : a / 1000000 % 60 = 0 ∧ a % 1000000 = 0
    · left; rw [if_pos h1]; simp [padNum_length]
    · rw [if_neg h1]
      by_cases h2 : a % 1000000 = 0
      · right; left; rw [if_pos h2]; simp [padNum_length]
      · right; right; rw [if_neg h2]; simp [padNum_length]
  have hdecomp : (a / 3600000000 * 3600 + a / 60000000 % 60 * 60 + a / 1000000 % 60) * 1000000
      + a % 1000000 = a := by omega
  unfold parseTZDelta
  rw [if_pos hlen, offComps_parse a ha]
  simp only [hdecomp]
  rw [if_pos (by unfold dayUS; exact_mod_cast ha)]

theorem sign_not_mem_offComps (c : Char) (hc : ∀ d, d < 10 → digitChar d ≠ c)
    (hcolon : c ≠ ':') (hdot : c ≠ '.') (a : ℕ) : c ∉ offComps a := by
  unfold offComps
  intro hmem
  rcases List.mem_append.mp hmem with h | h
  · rcases List.mem_append.mp h with h1 | h1
    · exact not_mem_padNum c hc _ _ h1
    · rcases List.mem_cons.mp h1 with h2 | h2
      · exact hcolon h2
      · exact not_mem_padNum c hc _ _ h2
  · by_cases h1 : a / 1000000 % 60 = 0 ∧ a % 1000000 = 0
    · rw [if_pos h1] at h
      exact List.not_mem_nil _ h
    · rw [if_neg h1] at h
      rcases List.mem_append.mp h with h2 | h2
      · rcases List.mem_cons.mp h2 with h3 | h3
        · exact hcolon h3
        · exact not_mem_padNum c hc _ _ h3
      · by_cases hm2 : a % 1000000 = 0
        · rw [if_pos hm2] at h2
          exact List.not_mem_nil _ h2
        · rw [if_neg hm2] at h2
          rcases List.mem_cons.mp h2 with h3 | h3
          · exact hdot h3
          · exact not_mem_padNum c hc _ _ h3

theorem sign_not_mem_timestr (c : Char) (hc : ∀ d, d < 10 → digitChar d ≠ c)
    (hcolon : c ≠ ':') (hdot : c ≠ '.') (hr mi sec mic : ℕ) :
    c ∉ padNum 2 hr ++ ':' :: (padNum 2 mi ++ ':' :: (padNum 2 sec ++
        (if mic = 0 then [] else '.' :: padNum 6 mic))) := by
  intro hmem
  rcases List.mem_append.mp hmem with h | h
  · exact not_mem_padNum c hc _ _ h
  rcases List.mem_cons.mp h with h | h
  · exact hcolon h
  rcases List.mem_append.mp h with h | h
  · exact not_mem_padNum c hc _ _ h
  rcases List.mem_cons.mp h with h | h
  · exact hcolon h
  rcases List.mem_append.mp h with h | h
  · exact not_mem_padNum c hc _ _ h
  by_cases hm : mic = 0
  · rw [if_pos hm] at h
    exact List.not_mem_nil _ h
  · rw [if_neg hm] at h
    rcases List.mem_cons.mp h with h | h
    · exact hdot h
    · exact not_mem_padNum c hc _ _ h

theorem parseTime_pad (hr mi sec mic : ℕ) (tz : Option ℤ)
    (hh : hr < 100) (hm : mi < 100) (hs2 : sec < 100) (hmic : mic ≤ 999999)
    (htz : tzValid tz) :
    parseTime (padNum 2 hr ++ ':' :: (padNum 2 mi ++ ':' :: (padNum 2 sec ++
        ((if mic = 0 then [] else '.' :: padNum 6 mic) ++ formatOffset tz))))
      = some ((hr, mi, sec, mic), tz) := by
  have hfrac : parseMicro (if mic = 0 then [] else '.' :: padNum 6 mic) = some mic := by
    by_cases hz : mic = 0
    · rw [if_pos hz, hz]; rfl
    · rw [if_neg hz]; exact parseMicro_pad _ hmic
  have hdashT := sign_not_mem_timestr '-' dash_not_digit (by decide) (by decide) hr mi sec mic
  have hplusT := sign_not_mem_timestr '+' plus_not_digit (by decide) (by decide) hr mi sec mic
  have hassoc : padNum 2 hr ++ ':' :: (padNum 2 mi ++ ':' :: (padNum 2 sec ++
        ((if mic = 0 then [] else '.' :: padNum 6 mic) ++ formatOffset tz)))
      = (padNum 2 hr ++ ':' :: (padNum 2 mi ++ ':' :: (padNum 2 sec ++
          (if mic = 0 then [] else '.' :: padNum 6 mic)))) ++ formatOffset tz := by
    simp [List.append_assoc]
  rw [hassoc]
  rcases tz with _ | d
  · rw [show formatOffset none = [] from rfl, List.append_nil]
    unfold parseTime
    rw [if_neg (by simp only [List.length_append, List.length_cons, padNum_length]; omega),
      splitTZ_of_not_mem _ hdashT hplusT]
    simp only []
    rw [parseHMSF_pad3 _ _ _ _ _ hh hm hs2 hfrac]
  · obtain ⟨hd1, hd2⟩ := (htz : -dayUS < d ∧ d < dayUS)
    have ha : d.natAbs < 86400000000 := by
      unfold dayUS at hd1 hd2
      omega
    have hdashO := sign_not_mem_offComps '-' dash_not_digit (by decide) (by decide) d.natAbs
    rw [show formatOffset (some d) = (if d < 0 then '-' else '+') :: offComps d.natAbs from rfl]
    by_cases hneg : d < 0
    · rw [if_pos hneg]
      unfold parseTime
      rw [if_neg (by simp only [List.length_append, List.length_cons, padNum_length]; omega),
        splitTZ_neg _ _ hdashT]
      simp only []
      rw [parseHMSF_pad3 _ _ _ _ _ hh hm hs2 hfrac]
      simp only []
      rw [parseTZDelta_offComps true _ ha]
      simp [abs_of_neg hneg]
    · rw [if_neg hneg]
      unfold parseTime
      rw [if_neg (by simp only [List.length_append, List.length_cons, padNum_length]; omega),
        splitTZ_pos _ _ hdashT hdashO hplusT]
      simp only []
      rw [parseHMSF_pad3 _ _ _ _ _ hh hm hs2 hfrac]
      simp only []
      rw [parseTZDelta_offComps false _ ha]
      simp [abs_of_nonneg (le_of_not_lt hneg)]

theorem parseDate_pad (y mo dy : ℕ) (hy : y < 10000) (hmo : mo < 100) (hdy : dy < 100) :
    parseDate (padNum 4 y ++ '-' :: (padNum 2 mo ++ '-' :: padNum 2 dy))
      = some (y, mo, dy) := by
  have ey : y % 10 ^ 4 = y := Nat.mod_eq_of_lt (by omega)
  have emo : mo % 10 ^ 2 = mo := Nat.mod_eq_of_lt (by omega)
  have ed : dy % 10 ^ 2 = dy := Nat.mod_eq_of_lt (by omega)
  obtain ⟨x1, x2, hx⟩ : ∃ x1 x2, padNum 2 dy = [x1, x2] := ⟨_, _, rfl⟩
  simp only [parseDate, parseFixed_padNum, Option.bind_eq_bind, Option.some_bind,
    expectCh_cons, Nat.zero_mul, Nat.zero_add, ey, emo]
  rw [hx]
  simp only []
  rw [← hx, parseFixed_padNum_nil]
  simp only [Nat.zero_mul, Nat.zero_add, ed]
  rfl

/-- `fromisoformat` inverts `isoformat` on every `datetime` the constructor
accepts, aware objects included. -/
theorem fromisoformat_isoformat (t : Datetime) (h : t.Valid) :
    fromisoformat t.isoformat = some t := by
  obtain ⟨hy1, hy2, hm1, hm2, hd1, hd2, hh, hmi, hs, hmic, htz⟩ := h
  have hdm := daysInMonth_le t.year t.month
  have hvalid : Datetime.Valid ⟨t.year, t.month, t.day, t.hour, t.minute, t.second,
      t.microsecond, t.tzoffset⟩ := ⟨hy1, hy2, hm1, hm2, hd1, hd2, hh, hmi, hs, hmic, htz⟩
  have hsplit : t.isoformat
      = ((padNum 4 t.year ++ '-' :: (padNum 2 t.month ++ '-' :: padNum 2 t.day)) ++ ['T'])
        ++ (padNum 2 t.hour ++ ':' :: (padNum 2 t.minute ++ ':' :: (padNum 2 t.second ++
          ((if t.microsecond = 0 then [] else '.' :: padNum 6 t.microsecond) ++
            formatOffset t.tzoffset)))) := by
    simp [Datetime.isoformat, List.append_assoc]
  have htake : t.isoformat.take 10
      = padNum 4 t.year ++ '-' :: (padNum 2 t.month ++ '-' :: padNum 2 t.day) := by
    rw [hsplit, List.append_assoc, List.singleton_append]
    exact List.take_left' (by simp [padNum_length])
  have hdrop : t.isoformat.drop 11
      = padNum 2 t.hour ++ ':' :: (padNum 2 t.minute ++ ':' :: (padNum 2 t.second ++
          ((if t.microsecond = 0 then [] else '.' :: padNum 6 t.microsecond) ++
            formatOffset t.tzoffset))) := by
    rw [hsplit]
    exact List.drop_left' (by simp [padNum_length])
  have hdate := parseDate_pad t.year t.month t.day (by omega) (by omega) (by omega)
  have htime := parseTime_pad t.hour t.minute t.second t.microsecond t.tzoffset
      (by omega) (by omega) (by omega) hmic htz
  obtain ⟨x, xs, hx⟩ : ∃ x xs, padNum 2 t.hour ++ ':' :: (padNum 2 t.minute ++ ':' ::
      (padNum 2 t.second ++ ((if t.microsecond = 0 then [] else '.' :: padNum 6 t.microsecond) ++
        formatOffset t.tzoffset))) = x :: xs := ⟨_, _, rfl⟩
  unfold fromisoformat
  rw [htake, hdate, hdrop, hx]
  simp only [Option.bind_eq_bind, Option.some_bind]
  rw [← hx, htime]
  simp only [Option.some_bind]
  rw [if_pos hvalid]

/-! ## Dict lemmas -/

/-- The final clamp of `calculate_trust_score` lands in `[0, 1]`. -/
theorem clamp_unit (x : ℚ) : 0 ≤ max 0.0 (min 1.0 x) ∧ max 0.0 (min 1.0 x) ≤ 1 := by
  constructor
  · rw [le_max_iff]; left; norm_num
  · rw [max_le_iff]
    exact ⟨by norm_num, by rw [min_le_iff]; left; norm_num⟩

/-! ## The claims -/

/-- Claim C1: for every `AISystemProfile`, whatever values the metric fields
hold (out-of-range scores and negative counts included),
`calculate_trust_score()` returns a value in the closed range `[0, 1]`. -/
theorem calculate_trust_score_in_unit_range (p : AISystemProfile) :
    0 ≤ p.calculate_trust_score ∧ p.calculate_trust_score ≤ 1 := by
  unfold AISystemProfile.calculate_trust_score
  rcases hm : p.trust_metrics with _ | tm
  · norm_num
  · exact clamp_unit _

theorem calculate_trust_score_in_unit_range_witness :
    0 ≤ wProfileFull.calculate_trust_score ∧ wProfileFull.calculate_trust_score ≤ 1 :=
  calculate_trust_score_in_unit_range wProfileFull

/-- Claim C2: with all four scores at `1.0`, at least 100 collaborations and at
least 2 conflict resolutions, `calculate_trust_score()` is exactly `1.0`: the
weighted terms sum to `1.0`, the bonus is capped at `0.1`, and the clamp brings
the `1.1` total back to the ceiling. -/
theorem calculate_trust_score_ceiling (p : AISystemProfile) (m : TrustMetrics)
    (hm : p.trust_metrics = some m)
    (h1 : m.reliability_score = 1) (h2 : m.ethical_alignment = 1)
    (h3 : m.transparency_index = 1) (h4 : m.consistency_score = 1)
    (h5 : 100 ≤ m.collaboration_history) (h6 : 2 ≤ m.conflict_resolutions) :
    p.calculate_trust_score = 1 := by
  unfold AISystemProfile.calculate_trust_score
  rw [hm]
  have hcol : min ((m.collaboration_history : ℚ) / 100) 1.0 = 1.0 := by
    rw [min_eq_right]
    rw [le_div_iff₀ (by norm_num)]
    have : (100 : ℚ) ≤ (m.collaboration_history : ℚ) := by exact_mod_cast h5
    norm_num
    linarith
  have hbon : min ((m.conflict_resolutions : ℚ) * 0.05) 0.1 = 0.1 := by
    rw [min_eq_right]
    have : (2 : ℚ) ≤ (m.conflict_resolutions : ℚ) := by exact_mod_cast h6
    rw [show (0.05 : ℚ) = 1 / 20 by norm_num, show (0.1 : ℚ) = 1 / 10 by norm_num]
    linarith
  simp only [h1, h2, h3, h4, hcol, hbon]
  norm_num [List.sum_cons, List.sum_nil, min_def, max_def]

theorem calculate_trust_score_ceiling_witness : wProfileFull.calculate_trust_score = 1 :=
  calculate_trust_score_ceiling wProfileFull wMetricsFull rfl rfl rfl rfl rfl
    (by decide) (by decide)

/-- Claim C3: `calculate_trust_score()` never raises (the translation is a
total function); in particular a profile whose `trust_metrics` is `None`
yields `0.0`. -/
theorem calculate_trust_score_missing_metrics (p : AISystemProfile)
    (h : p.trust_metrics = none) : p.calculate_trust_score = 0 := by
  unfold AISystemProfile.calculate_trust_score
  rw [h]

theorem calculate_trust_score_missing_metrics_witness :
    wProfileNone.calculate_trust_score = 0 :=
  calculate_trust_score_missing_metrics wProfileNone rfl

/-- Claim C4: `from_dict(to_dict(m))` reproduces `m` exactly, field by field,
sub-second timestamp precision included, for every timestamp the `datetime`
constructor accepts (microseconds are exactly the precision `isoformat`
preserves). -/
theorem from_dict_to_dict_roundtrip (m : TrustMetrics) (now : Datetime)
    (h : m.verification_timestamp.Valid) :
    (TrustMetrics.from_dict now m.to_dict).1 = Except.ok m := by
  have hfind : Dict.find? m.to_dict "verification_timestamp"
      = some (Value.vStr m.verification_timestamp.isoformat) := rfl
  simp only [TrustMetrics.from_dict, hfind, fromisoformat_isoformat _ h]
  rfl

theorem from_dict_to_dict_roundtrip_witness :
    (TrustMetrics.from_dict wNow wMetricsFull.to_dict).1 = Except.ok wMetricsFull :=
  from_dict_to_dict_roundtrip wMetricsFull wNow (by decide)

/-- Claim C6: `calculate_trust_score()` leaves every field of the profile
unchanged, and a second call on the resulting state returns the same value. -/
theorem calculate_trust_score_pure (p : AISystemProfile) :
    (p.calculate_trust_score_run.1.system_id = p.system_id ∧
     p.calculate_trust_score_run.1.domain = p.domain ∧
     p.calculate_trust_score_run.1.capabilities = p.capabilities ∧
     p.calculate_trust_score_run.1.ethical_framework_version = p.ethical_framework_version ∧
     p.calculate_trust_score_run.1.trust_metrics = p.trust_metrics ∧
     p.calculate_trust_score_run.1.last_interaction = p.last_interaction ∧
     p.calculate_trust_score_run.1.blacklisted_domains = p.blacklisted_domains) ∧
    p.calculate_trust_score_run.1.calculate_trust_score_run.2 = p.calculate_trust_score_run.2 :=
  ⟨⟨rfl, rfl, rfl, rfl, rfl, rfl, rfl⟩, rfl⟩

theorem calculate_trust_score_pure_witness :
    (wProfileFull.calculate_trust_score_run.1.system_id = wProfileFull.system_id ∧
     wProfileFull.calculate_trust_score_run.1.domain = wProfileFull.domain ∧
     wProfileFull.calculate_trust_score_run.1.capabilities = wProfileFull.capabilities ∧
     wProfileFull.calculate_trust_score_run.1.ethical_framework_version
       = wProfileFull.ethical_framework_version ∧
     wProfileFull.calculate_trust_score_run.1.trust_metrics = wProfileFull.trust_metrics ∧
     wProfileFull.calculate_trust_score_run.1.last_interaction = wProfileFull.last_interaction ∧
     wProfileFull.calculate_trust_score_run.1.blacklisted_domains
       = wProfileFull.blacklisted_domains) ∧
    wProfileFull.calculate_trust_score_run.1.calculate_trust_score_run.2
      = wProfileFull.calculate_trust_score_run.2 :=
  calculate_trust_score_pure wProfileFull

/-- Claim C7: the default framework loads exactly the five principles
autonomy, beneficence, justice, transparency, accountability; every weight is
non-negative; and the weights sum to `1.0` within tolerance `1e-9` (here the
sum is exact), whatever the truncated accountability metadata is. -/
theorem default_framework_weights (fid accDescription : String) (accMinThreshold : ℚ) :
    (EthicalFramework.init fid accDescription accMinThreshold).rules.map Prod.fst
      = ["autonomy", "beneficence", "justice", "transparency", "accountability"] ∧
    (∀ r ∈ (EthicalFramework.init fid accDescription accMinThreshold).rules, 0 ≤ r.2.weight) ∧
    |((EthicalFramework.init fid accDescription accMinThreshold).rules.map
        (fun r => r.2.weight)).sum - 1| ≤ 1 / 10 ^ 9 := by
  refine ⟨rfl, ?_, ?_⟩
  · intro r hr
    simp only [EthicalFramework.init, defaultRules, List.mem_cons, List.not_mem_nil,
      or_false] at hr
    rcases hr with h | h | h | h | h <;> subst h <;> norm_num
  · norm_num [EthicalFramework.init, defaultRules]

theorem default_framework_weights_witness :
    (EthicalFramework.init "global_v1" "d" 0.5).rules.map Prod.fst
      = ["autonomy", "beneficence", "justice", "transparency", "accountability"] ∧
    (∀ r ∈ (EthicalFramework.init "global_v1" "d" 0.5).rules, 0 ≤ r.2.weight) ∧
    |((EthicalFramework.init "global_v1" "d" 0.5).rules.map
        (fun r => r.2.weight)).sum - 1| ≤ 1 / 10 ^ 9 :=
  default_framework_weights "global_v1" "d" 0.5

/-- Claim C8: the collaboration term saturates at 100:
`collaboration_history = 100` and `= 200` give identical scores when every
other field agrees. -/
theorem collaboration_history_saturates (p : AISystemProfile) (m : TrustMetrics) :
    AISystemProfile.calculate_trust_score
        { p with trust_metrics := some { m with collaboration_history := 100 } }
      = AISystemProfile.calculate_trust_score
        { p with trust_metrics := some { m with collaboration_history := 200 } } := by
  unfold AISystemProfile.calculate_trust_score
  norm_num

theorem collaboration_history_saturates_witness :
    AISystemProfile.calculate_trust_score
        { wProfileFull with
            trust_metrics := some { wMetricsFull with collaboration_history := 100 } }
      = AISystemProfile.calculate_trust_score
        { wProfileFull with
            trust_metrics := some { wMetricsFull with collaboration_history := 200 } } :=
  collaboration_history_saturates wProfileFull wMetricsFull

/-- Claim C9: all four scores `0.0`, no collaborations, no resolutions give a
score of exactly `0.0`. -/
theorem calculate_trust_score_zero (p : AISystemProfile) (m : TrustMetrics)
    (hm : p.trust_metrics = some m)
    (h1 : m.reliability_score = 0) (h2 : m.ethical_alignment = 0)
    (h3 : m.transparency_index = 0) (h4 : m.consistency_score = 0)
    (h5 : m.collaboration_history = 0) (h6 : m.conflict_resolutions = 0) :
    p.calculate_trust_score = 0 := by
  unfold AISystemProfile.calculate_trust_score
  rw [hm]
  norm_num [h1, h2, h3, h4, h5, h6, List.sum_cons, List.sum_nil, min_def, max_def]

theorem calculate_trust_score_zero_witness : wProfileZero.calculate_trust_score = 0 :=
  calculate_trust_score_zero wProfileZero wMetricsZero rfl rfl rfl rfl rfl rfl rfl

end ASTF
